import Mathlib

/-!
Verification of the Pi Player playback-and-cache runtime.

This file gives a shallow embedding of the core of the repository:
the download/cache manager (`download_manager.py`, `media_downloader.py`),
the cache pruning pass (`cleanup_old_cache.py`) and the playback
supervisor (`media_player.py`), together with theorems settling the
frozen claims about them.

Modelling conventions:
* A file system is a function from path strings to `FileState`; a file is
  `present content readable` where `readable = false` models a file whose
  `stat` works but whose `open` raises (permission / IO error).
* Python dict items become the `Item` structure; a missing or empty-string
  field is `none` after `truthy` (Python truthiness of `item.get(...)`).
* The SHA-256 digest is an abstract parameter `H : List Nat → String`;
  the streaming 8192-byte chunk loop of the source is embedded explicitly.
* Network transfers are an oracle `NetResult`: the full body arrives, the
  connection fails before any byte is written, or the transfer fails after
  a partial write to the temp file.
* Exceptions that a Python function catches internally are modelled by the
  `Except` layer (`readFile`, `calcChecksumExc`) being collapsed to the
  value the handler returns.
-/

namespace PiPlayer

/-- A playlist item (`{"filename": ..., "url": ..., "checksum": ...}`).
`none` models an absent key; `duration` is irrelevant to the claims. -/
structure Item where
  filename : Option String
  url : Option String
  checksum : Option String
deriving Repr, DecidableEq

/-- A playlist document (`{"version": ..., "loop": ..., "items": [...]}`).
`version` models `data.get("version", "unknown")` and `loop` models
`data.get("loop", True)` after JSON parsing. -/
structure Playlist where
  version : String
  loop : Bool
  items : List Item
deriving Repr, DecidableEq

/-- Python truthiness of an optional string: `None` and `""` are falsy. -/
def truthy : Option String → Option String
  | none => none
  | some s => if s = "" then none else some s

/-- State of one path on disk.  `present content readable`: the file exists,
`stat` reports `content.length` bytes, and `open` succeeds iff `readable`. -/
inductive FileState
  | absent
  | present (content : List Nat) (readable : Bool)
deriving Repr, DecidableEq

/-- A file system: contents of every path. -/
def FS : Type := String → FileState

/-- Write/replace/delete one path (`open(p,'wb')`, `Path.replace`, `unlink`). -/
def FS.set (fs : FS) (p : String) (st : FileState) : FS :=
  fun q => if q = p then st else fs q

/-- `Path.exists()`. -/
def FS.existsb (fs : FS) (p : String) : Bool :=
  match fs p with
  | FileState.absent => false
  | FileState.present _ _ => true

theorem FS.set_self (fs : FS) (p : String) (st : FileState) :
    FS.set fs p st p = st := by
  simp [FS.set]

theorem FS.set_ne (fs : FS) (p : String) (st : FileState) (q : String)
    (h : q ≠ p) : FS.set fs p st q = fs q := by
  simp [FS.set, h]

/-- Appending a nonempty suffix changes a string (used for temp paths). -/
theorem ne_append_tmp (s t : String) (ht : t ≠ "") : s ≠ s ++ t := by
  intro h
  have hl := congrArg String.length h
  rw [String.length_append] at hl
  have : t.length = 0 := by omega
  exact ht (String.ext (List.length_eq_zero.mp this))

/-- `media_cache/<filename>` (`config.get_media_path`). -/
def get_media_path (filename : String) : String :=
  "media_cache/" ++ filename

/-- `open(path, 'rb')` followed by reading the whole stream: succeeds with
the content iff the file exists and is readable. -/
def readFile (fs : FS) (p : String) : Except String (List Nat) :=
  match fs p with
  | FileState.absent => Except.error "FileNotFoundError"
  | FileState.present c true => Except.ok c
  | FileState.present _ false => Except.error "IOError"

/-- The fixed-size chunk stream `iter(lambda: f.read(8192), b'')`. -/
def chunks8192 (l : List Nat) : List (List Nat) :=
  if h : l = [] then []
  else List.take 8192 l :: chunks8192 (List.drop 8192 l)
termination_by l.length
decreasing_by
  simp only [List.length_drop]
  have : 0 < l.length := List.length_pos.mpr h
  omega

theorem chunks8192_flatten (l : List Nat) : (chunks8192 l).flatten = l := by
  rw [chunks8192]
  split
  · simp [*]
  · show List.take 8192 l ++ (chunks8192 (List.drop 8192 l)).flatten = l
    rw [chunks8192_flatten (List.drop 8192 l), List.take_append_drop]
termination_by l.length
decreasing_by
  simp only [List.length_drop]
  have : 0 < l.length := List.length_pos.mpr (by assumption)
  omega

theorem chunks8192_size (l : List Nat) :
    ∀ ch ∈ chunks8192 l, ch.length ≤ 8192 := by
  rw [chunks8192]
  split
  · simp
  · intro ch hch
    rcases List.mem_cons.mp hch with h | h
    · subst h
      simpa using List.length_take_le 8192 l
    · exact chunks8192_size (List.drop 8192 l) ch h
termination_by l.length
decreasing_by
  simp only [List.length_drop]
  have : 0 < l.length := List.length_pos.mpr (by assumption)
  omega

/-- The hasher accumulates the chunk stream (`hasher.update(chunk)` per
chunk); `foldl` makes the streaming order explicit. -/
def hasherFold (chs : List (List Nat)) : List Nat :=
  chs.foldl (fun acc ch => acc ++ ch) []

theorem hasherFold_eq_flatten (chs : List (List Nat)) :
    hasherFold chs = chs.flatten := by
  unfold hasherFold
  suffices h : ∀ acc : List Nat,
      chs.foldl (fun acc ch => acc ++ ch) acc = acc ++ chs.flatten by
    simpa using h []
  induction chs with
  | nil => simp
  | cons c cs ih => intro acc; simp [ih, List.append_assoc]

/-- `download_manager.calculate_checksum`, keeping the exception channel
explicit: the body either returns a digest, or the `except Exception`
handler catches the error and returns `None` (never re-raising). -/
def calcChecksumExc (H : List Nat → String) (fs : FS) (p : String) :
    Except String (Option String) :=
  match readFile fs p with
  | Except.error _ => Except.ok none
  | Except.ok content =>
      Except.ok (some (H (hasherFold (chunks8192 content))))

/-- `download_manager.calculate_checksum(file_path)`: streaming digest of
8192-byte chunks; returns `None` on any failure (lines 105-113). -/
def calculate_checksum (H : List Nat → String) (fs : FS) (p : String) :
    Option String :=
  match readFile fs p with
  | Except.error _ => none
  | Except.ok content => some (H (hasherFold (chunks8192 content)))

theorem calcChecksumExc_eq (H : List Nat → String) (fs : FS) (p : String) :
    calcChecksumExc H fs p = Except.ok (calculate_checksum H fs p) := by
  unfold calcChecksumExc calculate_checksum
  cases readFile fs p <;> rfl

/-- `media_downloader.sha256_file(path)`: same 8192-byte streaming loop,
`None` on any exception (lines 30-39). -/
def sha256_file (H : List Nat → String) (fs : FS) (p : String) :
    Option String :=
  match readFile fs p with
  | Except.error _ => none
  | Except.ok content => some (H (hasherFold (chunks8192 content)))

theorem calculate_checksum_readable (H : List Nat → String) (fs : FS)
    (p : String) (c : List Nat) (h : fs p = FileState.present c true) :
    calculate_checksum H fs p = some (H c) := by
  unfold calculate_checksum readFile
  rw [h]
  simp [hasherFold_eq_flatten, chunks8192_flatten]

theorem calculate_checksum_unreadable (H : List Nat → String) (fs : FS)
    (p : String) (c : List Nat) (h : fs p = FileState.present c false) :
    calculate_checksum H fs p = none := by
  unfold calculate_checksum readFile
  rw [h]

theorem sha256_file_readable (H : List Nat → String) (fs : FS)
    (p : String) (c : List Nat) (h : fs p = FileState.present c true) :
    sha256_file H fs p = some (H c) := by
  unfold sha256_file readFile
  rw [h]
  simp [hasherFold_eq_flatten, chunks8192_flatten]


/-! ## Download manager (`download_manager.py`) -/

/-- `download_manager.needs_download(item)` (lines 115-158): returns
`(needs_download, reason, cached_path)` following the source order:
missing filename, missing url, not cached, empty file, checksum
mismatch / valid, exists without checksum. -/
def needs_download (H : List Nat → String) (fs : FS) (item : Item) :
    Bool × String × Option String :=
  match truthy item.filename with
  | none => (false, "missing filename", none)
  | some filename =>
    match truthy item.url with
    | none => (false, "missing url", none)
    | some _ =>
      let cached_path := get_media_path filename
      match fs cached_path with
      | FileState.absent => (true, "not cached", some cached_path)
      | FileState.present content _ =>
        if content.length = 0 then (true, "empty file", some cached_path)
        else
          match truthy item.checksum with
          | some expected =>
            if calculate_checksum H fs cached_path ≠ some expected then
              (true, "checksum mismatch", some cached_path)
            else (false, "checksum valid", some cached_path)
          | none => (false, "exists in cache", some cached_path)

/-- Outcome of one HTTP transfer: the whole body arrives, the connection
fails before the temp file is opened, or the stream fails after a partial
write of `written` bytes to the temp file. -/
inductive NetResult
  | ok (bytes : List Nat)
  | failConnect
  | failMid (written : List Nat)
deriving Repr, DecidableEq

/-- Per-item result record (the `status` / `reason` fields of the dicts
built by `download_single_item` and `download_one`). -/
structure DLResult where
  status : String
  reason : String
deriving Repr, DecidableEq

/-- `download_manager.download_single_item(item, session)` (lines 193-325).
`tr` models whether the freshly written temp file can be re-opened for the
checksum pass.  On the network-failure paths the `finally` block (lines
320-323) removes the temp file; on checksum mismatch it is removed at line
288; on success `temp_path.replace(cached_path)` promotes it (line 298).
The reason strings drop the interpolated exception text. -/
def download_single_item (H : List Nat → String) (fs : FS) (item : Item)
    (net : NetResult) (tr : Bool) : DLResult × FS :=
  match needs_download H fs item with
  | (false, reason, _) => (⟨"cached", reason⟩, fs)
  | (true, _, none) =>
      -- unreachable: `needs_download` returns a path whenever it returns
      -- `true` (theorem `needs_download_true_path`)
      (⟨"error", "missing cached path"⟩, fs)
  | (true, _, some cached_path) =>
    match truthy item.url with
    | none => (⟨"error", "missing url"⟩, fs)
    | some _ =>
      let temp_path := cached_path ++ ".tmp"
      match net with
      | NetResult.failConnect =>
          (⟨"error", "network error"⟩, FS.set fs temp_path FileState.absent)
      | NetResult.failMid _ =>
          (⟨"error", "network error"⟩, FS.set fs temp_path FileState.absent)
      | NetResult.ok bytes =>
        let fs1 := FS.set fs temp_path (FileState.present bytes tr)
        match truthy item.checksum with
        | some expected =>
          if calculate_checksum H fs1 temp_path ≠ some expected then
            (⟨"error", "checksum verification failed"⟩,
             FS.set fs1 temp_path FileState.absent)
          else
            (⟨"downloaded", "successfully downloaded"⟩,
             FS.set (FS.set fs1 cached_path (FileState.present bytes tr))
               temp_path FileState.absent)
        | none =>
          (⟨"downloaded", "successfully downloaded"⟩,
           FS.set (FS.set fs1 cached_path (FileState.present bytes tr))
             temp_path FileState.absent)

theorem needs_download_true_path (H : List Nat → String) (fs : FS)
    (item : Item) (f : String) (hf : truthy item.filename = some f) :
    (needs_download H fs item).1 = true →
    (needs_download H fs item).2.2 = some (get_media_path f) := by
  unfold needs_download
  rw [hf]
  dsimp only
  cases truthy item.url with
  | none => simp
  | some u =>
    cases fs (get_media_path f) with
    | absent => simp
    | present c r =>
      by_cases hz : c.length = 0
      · simp [hz]
      · simp only [if_neg hz]
        cases truthy item.checksum with
        | none => simp
        | some exp => dsimp only; split <;> simp

/-! ## Media downloader (`media_downloader.py`) -/

/-- `media_downloader.needs_download(item)` (lines 42-68): checks only the
filename, cache existence and checksum — no url check and no empty-file
check. -/
def md_needs_download (H : List Nat → String) (fs : FS) (item : Item) :
    Bool × String :=
  match truthy item.filename with
  | none => (false, "missing filename")
  | some filename =>
    let dest := get_media_path filename
    match fs dest with
    | FileState.absent => (true, "not cached")
    | FileState.present _ _ =>
      match truthy item.checksum with
      | some checksum =>
        if sha256_file H fs dest ≠ some checksum then
          (true, "checksum mismatch")
        else (false, "up-to-date")
      | none => (false, "exists")

/-- `media_downloader.download_one(item, session, timeout)` (lines 71-123).
The temp suffix is `.part`; on checksum mismatch the temp file is unlinked
(line 111), but the `except Exception` handler (lines 119-123) performs no
cleanup, so a stream failure after a partial write leaves the `.part` file
on disk. -/
def download_one (H : List Nat → String) (fs : FS) (item : Item)
    (net : NetResult) : DLResult × FS :=
  match md_needs_download H fs item with
  | (false, reason) => (⟨"ok", reason⟩, fs)
  | (true, _) =>
    match truthy item.url, truthy item.filename with
    | some _, some filename =>
      let dest := get_media_path filename
      let tmp_path := dest ++ ".part"
      match net with
      | NetResult.failConnect => (⟨"error", "network error"⟩, fs)
      | NetResult.failMid written =>
          (⟨"error", "network error"⟩,
           FS.set fs tmp_path (FileState.present written true))
      | NetResult.ok bytes =>
        let fs1 := FS.set fs tmp_path (FileState.present bytes true)
        match truthy item.checksum with
        | some checksum =>
          if sha256_file H fs1 tmp_path ≠ some checksum then
            (⟨"error", "checksum verify failed"⟩,
             FS.set fs1 tmp_path FileState.absent)
          else
            (⟨"downloaded", ""⟩,
             FS.set (FS.set fs1 dest (FileState.present bytes true))
               tmp_path FileState.absent)
        | none =>
          (⟨"downloaded", ""⟩,
           FS.set (FS.set fs1 dest (FileState.present bytes true))
             tmp_path FileState.absent)
    | _, _ => (⟨"error", "missing url or filename"⟩, fs)

/-! ## Batch download (`download_manager.download_playlist_items`) -/

/-- Count of results with a given status. -/
def countStatus (s : String) (rs : List DLResult) : Nat :=
  rs.countP (fun r => r.status == s)

/-- Summary dict built at `download_manager.py` lines 381-390. -/
structure BatchSummary where
  total_items : Nat
  downloaded : Nat
  cached : Nat
  errors : Nat
  results : List DLResult
deriving Repr, DecidableEq

/-- `download_manager.download_playlist_items(playlist_data)` (lines
327-405): structural error for an empty item list (line 333), otherwise
one `download_single_item` per item (the worker pool is modelled by the
per-item oracles `net`/`tr`; counts are order-independent). -/
def download_playlist_items (H : List Nat → String) (fs : FS)
    (pl : Playlist) (net : Item → NetResult) (tr : Item → Bool) :
    Except String BatchSummary :=
  if pl.items = [] then Except.error "no items in playlist"
  else
    let results := pl.items.map
      (fun it => (download_single_item H fs it (net it) (tr it)).1)
    Except.ok
      { total_items := pl.items.length
        downloaded := countStatus "downloaded" results
        cached := countStatus "cached" results
        errors := countStatus "error" results
        results := results }

theorem download_single_item_status (H : List Nat → String) (fs : FS)
    (item : Item) (net : NetResult) (tr : Bool) :
    (download_single_item H fs item net tr).1.status = "cached" ∨
    (download_single_item H fs item net tr).1.status = "downloaded" ∨
    (download_single_item H fs item net tr).1.status = "error" := by
  unfold download_single_item
  rcases hnd : needs_download H fs item with ⟨b, reason, po⟩
  cases b
  · simp
  · cases po
    · simp
    · cases truthy item.url
      · simp
      · cases net
        · cases truthy item.checksum
          · simp
          · dsimp only
            split <;> simp
        · simp
        · simp


/-! ## Cache pruning (`cleanup_old_cache.py`) -/

/-- `get_current_playlist_filenames()` (lines 15-36): the set of truthy
`filename` fields of the playlist items. -/
def get_current_playlist_filenames (pl : Playlist) : Finset String :=
  (pl.items.filterMap (fun it => truthy it.filename)).toFinset

/-- `get_cached_filenames()` (lines 38-58): every regular file in the cache
directory except `.gitkeep` — note that `.tmp` temp files are NOT
excluded.  `cache` is the set of file names in the cache directory. -/
def get_cached_filenames (cache : Finset String) : Finset String :=
  cache.filter (fun n => n ≠ ".gitkeep")

/-- Return value of `cleanup_old_cache_files` (lines 130-136). -/
structure CleanupResult where
  deleted_count : Nat
  deleted_files : Finset String
  kept_files : Finset String
deriving DecidableEq

/-- `cleanup_old_cache_files(dry_run=False)` (lines 60-136): set difference
of cached filenames against playlist filenames; every file in the
difference exists (it came from the directory listing) and is unlinked. -/
def cleanup_old_cache_files (pl : Playlist) (cache : Finset String) :
    CleanupResult :=
  let playlist_files := get_current_playlist_filenames pl
  let cached_files := get_cached_filenames cache
  let files_to_delete := cached_files \ playlist_files
  let files_to_keep := cached_files ∩ playlist_files
  { deleted_count := files_to_delete.card
    deleted_files := files_to_delete
    kept_files := files_to_keep }

/-- Python `name.endswith(suffix)` (computable suffix test on the
character data). -/
def strEndsWith (s suffix : String) : Bool :=
  suffix.data.isSuffixOf s.data

/-- `download_manager.get_cache_status()` (lines 437-472): the listed
cache files are the regular files whose name does not end in `.tmp`. -/
def get_cache_status_filenames (names : List String) : List String :=
  names.filter (fun n => !(strEndsWith n ".tmp"))

/-! ## Playback supervisor (`media_player.py`) -/

/-- `config.DEFAULT_SCREEN_TIMEOUT` (30 seconds). -/
def DEFAULT_SCREEN_TIMEOUT : Nat := 30

/-- The mutable fields of the `MediaPlayer` object that the playback loop
touches (`media_player.py` lines 34-42). -/
structure PlayerState where
  playlist : List Item
  current_index : Nat
  playlist_version : Option String
  loop_enabled : Bool
  showing_default_screen : Bool
  no_playlist_since : Option Nat
deriving Repr, DecidableEq

/-- Externally visible actions of one supervisor iteration. -/
inductive Effect
  | stoppedPlayer
  | launchedDefault
  | wroteState (status : String) (current_item : Option String)
  | played (index : Nat) (item : Item) (success : Bool)
deriving Repr, DecidableEq

/-- `MediaPlayer.load_playlist()` (lines 67-99).  `doc` is the parsed
active-playlist file (`none`: file missing or unreadable, handled by the
`except` which returns `False`).  Adoption happens iff the version string
differs; on adoption items/loop are replaced and the index resets to 0. -/
def load_playlist (st : PlayerState) (doc : Option Playlist) :
    Bool × PlayerState :=
  match doc with
  | none => (false, st)
  | some data =>
    if some data.version ≠ st.playlist_version then
      (true,
        { st with
          playlist := data.items
          playlist_version := some data.version
          loop_enabled := data.loop
          current_index := 0
          no_playlist_since :=
            if data.items ≠ [] then none else st.no_playlist_since
          showing_default_screen :=
            if data.items ≠ [] then false else st.showing_default_screen })
    else (false, st)

/-- `MediaPlayer.play_media_item(item)` (lines 244-284): `False` for a
missing filename or a missing cached file; otherwise the external player
runs and success is `return_code == 0`. -/
def play_media_item (fs : FS) (item : Item) (exit_code : Nat) : Bool :=
  match truthy item.filename with
  | none => false
  | some filename =>
    if FS.existsb fs (get_media_path filename) = false then false
    else decide (exit_code = 0)

/-- Environment of one supervisor iteration: the active-playlist file, the
wall clock, the cache file system, the player exit code, whether
`show_default_screen` succeeds, and the successive reads of the playlist
file performed inside the default-screen wait loop (lines 311-314). -/
structure TickEnv where
  doc : Option Playlist
  now : Nat
  fs : FS
  exit_code : Nat
  default_ok : Bool
  innerDocs : List (Option Playlist)

/-- The wait loop inside the default-screen branch (lines 311-314):
re-poll `load_playlist` until a reload adopts a playlist (break) or the
playlist is already non-empty; the `Bool` is true when the loop exited by
one of those conditions (false: the supplied reads ran out while still
looping). -/
def default_screen_wait :
    List (Option Playlist) → PlayerState → PlayerState × Bool
  | docs, st =>
    if st.playlist ≠ [] then (st, true)
    else
      match docs with
      | [] => (st, false)
      | d :: rest =>
        match load_playlist st d with
        | (true, st1) => (st1, true)
        | (false, st1) => default_screen_wait rest st1
termination_by docs _ => docs.length

/-- One playback of the current item (lines 338-346): fetch
`playlist[current_index]`, play it, and advance the index by one whether
or not playback succeeded. -/
def play_item (env : TickEnv) (st : PlayerState) :
    PlayerState × List Effect :=
  let item := st.playlist.getD st.current_index ⟨none, none, none⟩
  let ok := play_media_item env.fs item env.exit_code
  ({ st with current_index := st.current_index + 1 },
   [Effect.played st.current_index item ok])

/-- The non-empty-playlist part of the loop body (lines 326-346): wrap the
index to 0 when past the end and looping, idle in `finished` when past the
end and not looping, otherwise play the current item. -/
def tick_play (env : TickEnv) (st : PlayerState) :
    PlayerState × List Effect :=
  if st.current_index ≥ st.playlist.length then
    if st.loop_enabled then
      play_item env { st with current_index := 0 }
    else
      (st, [Effect.wroteState "finished" (some "Playlist complete")])
  else play_item env st

/-- The empty-playlist part of the loop body (lines 298-324): record when
waiting began; after `DEFAULT_SCREEN_TIMEOUT` launch the default screen
and sit in the wait loop until a playlist arrives, then stop the default
screen process. -/
def tick_empty (env : TickEnv) (st : PlayerState) :
    PlayerState × List Effect :=
  match st.no_playlist_since with
  | none =>
      ({ st with no_playlist_since := some env.now },
       [Effect.wroteState "waiting" (some "No playlist")])
  | some t0 =>
    if DEFAULT_SCREEN_TIMEOUT ≤ env.now - t0 ∧
        st.showing_default_screen = false then
      if env.default_ok then
        let w := default_screen_wait env.innerDocs
          { st with showing_default_screen := true }
        ({ w.1 with showing_default_screen := false },
         [Effect.wroteState "showing_default" (some "Default Screen"),
          Effect.launchedDefault, Effect.stoppedPlayer])
      else (st, [])
    else (st, [])

/-- One iteration of `MediaPlayer.playback_loop` (lines 290-350): reload
the playlist (stopping the player if it changed), then handle the empty or
non-empty case. -/
def tick (env : TickEnv) (st : PlayerState) : PlayerState × List Effect :=
  let l := load_playlist st env.doc
  let r := if l.2.playlist = [] then tick_empty env l.2 else tick_play env l.2
  (r.1, (if l.1 then [Effect.stoppedPlayer] else []) ++ r.2)

/-- Iterated supervisor ticks under a fixed environment, collecting the
effect trace. -/
def run_trace (env : TickEnv) : Nat → PlayerState → PlayerState × List Effect
  | 0, st => (st, [])
  | Nat.succ n, st =>
    let t := tick env st
    let r := run_trace env n t.1
    (r.1, t.2 ++ r.2)

/-- Indices of the items played in a trace. -/
def playedIndices (effs : List Effect) : List Nat :=
  effs.filterMap fun e =>
    match e with
    | Effect.played i _ _ => some i
    | _ => none

/-- The environment reads do not change the version driving playback. -/
def steady (env : TickEnv) (st : PlayerState) : Prop :=
  ∀ pl, env.doc = some pl → some pl.version = st.playlist_version

theorem load_playlist_steady (env : TickEnv) (st : PlayerState)
    (h : steady env st) : load_playlist st env.doc = (false, st) := by
  unfold load_playlist
  cases hd : env.doc with
  | none => rfl
  | some pl => simp [h pl hd]


theorem tick_steady (env : TickEnv) (st : PlayerState) (h : steady env st) :
    tick env st =
      if st.playlist = [] then tick_empty env st else tick_play env st := by
  unfold tick
  rw [load_playlist_steady env st h]
  dsimp only
  split <;> simp

theorem tick_advance (env : TickEnv) (st : PlayerState) (h : steady env st)
    (hidx : st.current_index < st.playlist.length) :
    tick env st =
      ({ st with current_index := st.current_index + 1 },
       [Effect.played st.current_index
         (st.playlist.getD st.current_index ⟨none, none, none⟩)
         (play_media_item env.fs
           (st.playlist.getD st.current_index ⟨none, none, none⟩)
           env.exit_code)]) := by
  rw [tick_steady env st h]
  have hne : st.playlist ≠ [] := by
    intro hnil
    rw [hnil] at hidx
    simp at hidx
  rw [if_neg hne]
  unfold tick_play
  rw [if_neg (by omega)]
  rfl

theorem tick_wrap (env : TickEnv) (st : PlayerState) (h : steady env st)
    (hne : st.playlist ≠ []) (hidx : st.current_index ≥ st.playlist.length)
    (hloop : st.loop_enabled = true) :
    tick env st =
      ({ st with current_index := 1 },
       [Effect.played 0 (st.playlist.getD 0 ⟨none, none, none⟩)
         (play_media_item env.fs (st.playlist.getD 0 ⟨none, none, none⟩)
           env.exit_code)]) := by
  rw [tick_steady env st h, if_neg hne]
  unfold tick_play
  rw [if_pos hidx, hloop, if_pos rfl]
  rfl

theorem tick_finished (env : TickEnv) (st : PlayerState) (h : steady env st)
    (hne : st.playlist ≠ []) (hidx : st.current_index ≥ st.playlist.length)
    (hloop : st.loop_enabled = false) :
    tick env st =
      (st, [Effect.wroteState "finished" (some "Playlist complete")]) := by
  rw [tick_steady env st h, if_neg hne]
  unfold tick_play
  rw [if_pos hidx, hloop]
  rfl

theorem playedIndices_append (a b : List Effect) :
    playedIndices (a ++ b) = playedIndices a ++ playedIndices b := by
  unfold playedIndices
  rw [List.filterMap_append]


/-- The environment reads never carry a version other than `v`. -/
def steadyV (env : TickEnv) (v : String) : Prop :=
  ∀ pl, env.doc = some pl → pl.version = v

theorem steady_of (env : TickEnv) (v : String) (st : PlayerState)
    (h : steadyV env v) (hv : st.playlist_version = some v) :
    steady env st := by
  intro pl hd
  rw [hv, h pl hd]

theorem run_trace_advance (env : TickEnv) (v : String) (h : steadyV env v) :
    ∀ (m : Nat) (st : PlayerState), st.playlist_version = some v →
    st.current_index + m ≤ st.playlist.length →
    (run_trace env m st).1 = { st with current_index := st.current_index + m }
    ∧ playedIndices (run_trace env m st).2 =
        (List.range m).map (fun k => st.current_index + k) := by
  intro m
  induction m with
  | zero =>
    intro st hv _
    refine ⟨?_, by simp [run_trace, playedIndices]⟩
    show st = _
    rfl
  | succ n ih =>
    intro st hv hle
    have hidx : st.current_index < st.playlist.length := by omega
    have ht := tick_advance env st (steady_of env v st h hv) hidx
    have hst1 := ih { st with current_index := st.current_index + 1 }
      (by simp [hv]) (by simp; omega)
    unfold run_trace
    rw [ht]
    dsimp only
    constructor
    · rw [hst1.1]
      dsimp only
      congr 1
      omega
    · rw [playedIndices_append, hst1.2]
      dsimp only
      simp only [playedIndices, List.filterMap_cons, List.filterMap_nil,
        List.range_succ_eq_map, List.map_cons, List.map_map,
        List.singleton_append, Nat.add_zero]
      congr 1
      have hf : (fun k => st.current_index + 1 + k)
          = ((fun k => st.current_index + k) ∘ Nat.succ) := by
        funext k
        simp only [Function.comp_apply]
        omega
      rw [hf]

theorem run_trace_finished (env : TickEnv) (v : String) (h : steadyV env v)
    (st : PlayerState) (hv : st.playlist_version = some v)
    (hne : st.playlist ≠ []) (hidx : st.current_index ≥ st.playlist.length)
    (hloop : st.loop_enabled = false) :
    ∀ n : Nat, run_trace env n st =
      (st, List.replicate n
        (Effect.wroteState "finished" (some "Playlist complete"))) := by
  intro n
  induction n with
  | zero => rfl
  | succ m ih =>
    unfold run_trace
    rw [tick_finished env st (steady_of env v st h hv) hne hidx hloop]
    dsimp only
    rw [ih]
    rfl

theorem run_trace_loop3 (env : TickEnv) (v : String) (h : steadyV env v) :
    ∀ (n : Nat) (st : PlayerState), st.playlist_version = some v →
    st.playlist.length = 3 → st.loop_enabled = true →
    st.current_index ≤ 3 →
    playedIndices (run_trace env n st).2 =
      (List.range n).map (fun k => (st.current_index + k) % 3) := by
  intro n
  induction n with
  | zero => intro st _ _ _ _; simp [run_trace, playedIndices]
  | succ m ih =>
    intro st hv hlen hloop hle
    by_cases hidx : st.current_index < st.playlist.length
    · have ht := tick_advance env st (steady_of env v st h hv) hidx
      have hrest := ih { st with current_index := st.current_index + 1 }
        (by simp [hv]) (by simp [hlen]) (by simp [hloop])
        (by simp; omega)
      unfold run_trace
      rw [ht]
      dsimp only
      rw [playedIndices_append, hrest]
      have hlt : st.current_index < 3 := by omega
      dsimp only
      simp only [playedIndices, List.filterMap_cons, List.filterMap_nil,
        List.range_succ_eq_map, List.map_cons, List.map_map,
        List.singleton_append, Nat.add_zero, Nat.mod_eq_of_lt hlt]
      congr 1
      have hf : (fun k => (st.current_index + 1 + k) % 3)
          = ((fun k => (st.current_index + k) % 3) ∘ Nat.succ) := by
        funext k
        simp only [Function.comp_apply]
        congr 1
        omega
      rw [hf]
    · have hge : st.current_index ≥ st.playlist.length := by omega
      have heq3 : st.current_index = 3 := by omega
      have hne : st.playlist ≠ [] := by
        intro hnil
        rw [hnil] at hlen
        simp at hlen
      have ht := tick_wrap env st (steady_of env v st h hv) hne hge hloop
      have hrest := ih { st with current_index := 1 }
        (by simp [hv]) (by simp [hlen]) (by simp [hloop]) (by simp)
      unfold run_trace
      rw [ht]
      dsimp only
      rw [playedIndices_append, hrest]
      dsimp only
      simp only [playedIndices, List.filterMap_cons, List.filterMap_nil,
        List.range_succ_eq_map, List.map_cons, List.map_map,
        List.singleton_append, Nat.add_zero, heq3]
      have hf : (fun k => (1 + k) % 3)
          = ((fun k => (3 + k) % 3) ∘ Nat.succ) := by
        funext k
        simp only [Function.comp_apply]
        rw [show (3 : Nat) + Nat.succ k = 3 + (k + 1) from rfl,
          Nat.add_mod_left, Nat.add_comm 1 k]
      rw [hf]


theorem countStatus_partition (rs : List DLResult)
    (h : ∀ r ∈ rs, r.status = "cached" ∨ r.status = "downloaded" ∨
      r.status = "error") :
    countStatus "downloaded" rs + countStatus "cached" rs +
      countStatus "error" rs = rs.length := by
  induction rs with
  | nil => simp [countStatus]
  | cons r rest ih =>
    have hr := h r (List.mem_cons_self r rest)
    have hrest := ih (fun x hx => h x (List.mem_cons_of_mem r hx))
    simp only [countStatus, List.countP_cons, List.length_cons] at *
    rcases hr with h1 | h1 | h1 <;> simp [h1] <;> omega

/-- Claim C5: for every playlist, `download_playlist_items` returns the
structural error result exactly when the playlist has no items; otherwise
it returns a summary whose `errors` equals the number K of items whose
individual fetch failed, with `downloaded + cached = N - K`, never
raising for an individual item failure. -/
theorem fetch_all_aggregate (H : List Nat → String) (fs : FS)
    (pl : Playlist) (net : Item → NetResult) (tr : Item → Bool) :
    (pl.items = [] →
      download_playlist_items H fs pl net tr =
        Except.error "no items in playlist") ∧
    (pl.items ≠ [] → ∃ s : BatchSummary,
      download_playlist_items H fs pl net tr = Except.ok s ∧
      s.total_items = pl.items.length ∧
      s.errors = pl.items.countP
        (fun it => (download_single_item H fs it (net it) (tr it)).1.status
          == "error") ∧
      s.downloaded + s.cached = pl.items.length - s.errors) := by
  constructor
  · intro he
    unfold download_playlist_items
    rw [if_pos he]
  · intro hne
    unfold download_playlist_items
    rw [if_neg hne]
    refine ⟨_, rfl, rfl, ?_, ?_⟩
    · show countStatus "error" (pl.items.map _) = _
      unfold countStatus
      rw [List.countP_map]
      rfl
    · have htri : ∀ r ∈ pl.items.map
          (fun it => (download_single_item H fs it (net it) (tr it)).1),
          r.status = "cached" ∨ r.status = "downloaded" ∨
            r.status = "error" := by
        intro r hr
        rcases List.mem_map.mp hr with ⟨it, _, hit⟩
        rw [← hit]
        exact download_single_item_status H fs it (net it) (tr it)
      have hpart := countStatus_partition _ htri
      rw [List.length_map] at hpart
      dsimp only
      omega

/-- Claim C5 witness: a two-item playlist where one item fails with a
network error and the other downloads. -/
theorem fetch_all_aggregate_witness :
    ∃ s : BatchSummary,
      download_playlist_items (fun _ => "d") (fun _ => FileState.absent)
        ⟨"v1", true,
          [⟨some "a.mp4", some "http://s/a.mp4", none⟩,
           ⟨some "b.mp4", some "http://s/b.mp4", none⟩]⟩
        (fun it => if it.filename = some "a.mp4" then NetResult.failConnect
          else NetResult.ok [1])
        (fun _ => true) = Except.ok s ∧
      s.total_items = 2 ∧ s.errors = 1 ∧ s.downloaded + s.cached = 1 := by
  have h := (fetch_all_aggregate (fun _ => "d") (fun _ => FileState.absent)
    ⟨"v1", true,
      [⟨some "a.mp4", some "http://s/a.mp4", none⟩,
       ⟨some "b.mp4", some "http://s/b.mp4", none⟩]⟩
    (fun it => if it.filename = some "a.mp4" then NetResult.failConnect
      else NetResult.ok [1])
    (fun _ => true)).2 (by decide)
  rcases h with ⟨s, hs, htot, herr, hsum⟩
  refine ⟨s, hs, ?_, ?_, ?_⟩
  · rw [htot]
    decide
  · rw [herr]
    decide
  · rw [hsum, herr]
    decide

/-- Claim C2: for every playlist and cache state, `cleanup_old_cache_files`
deletes exactly the cached filenames not referenced by the playlist items
(the set difference), hence the deleted set is disjoint from the playlist
filenames, and deleted and kept files partition the cached set. -/
theorem prune_deletes_set_difference (pl : Playlist)
    (cache : Finset String) :
    (cleanup_old_cache_files pl cache).deleted_files
        = get_cached_filenames cache \ get_current_playlist_filenames pl ∧
    Disjoint (cleanup_old_cache_files pl cache).deleted_files
        (get_current_playlist_filenames pl) ∧
    (cleanup_old_cache_files pl cache).deleted_files ∪
        (cleanup_old_cache_files pl cache).kept_files
      = get_cached_filenames cache := by
  refine ⟨rfl, Finset.sdiff_disjoint, ?_⟩
  show (get_cached_filenames cache \ get_current_playlist_filenames pl) ∪
      (get_cached_filenames cache ∩ get_current_playlist_filenames pl)
    = get_cached_filenames cache
  exact Finset.sdiff_union_inter _ _


/-- Claim C4 (amended): the enhanced download manager decides in the
claimed order: missing filename or url → not needed; file absent →
needed (not cached); present but zero bytes → needed (empty file);
checksum mismatched → needed; checksum matched → not needed; no checksum
and present non-empty → not needed.  `media_downloader.needs_download`
however never consults the url (an uncached item without a url is
reported as needing download) and has no empty-file check (a present
zero-byte file without a checksum is reported as not needing one). -/
theorem needs_download_decision (H : List Nat → String) (fs : FS)
    (item : Item) (f : String) :
    (truthy item.filename = none →
      needs_download H fs item = (false, "missing filename", none)) ∧
    (truthy item.filename = some f → truthy item.url = none →
      needs_download H fs item = (false, "missing url", none)) ∧
    (∀ u, truthy item.filename = some f → truthy item.url = some u →
      fs (get_media_path f) = FileState.absent →
      needs_download H fs item =
        (true, "not cached", some (get_media_path f))) ∧
    (∀ u r, truthy item.filename = some f → truthy item.url = some u →
      fs (get_media_path f) = FileState.present [] r →
      needs_download H fs item =
        (true, "empty file", some (get_media_path f))) ∧
    (∀ u r exp c, truthy item.filename = some f →
      truthy item.url = some u →
      fs (get_media_path f) = FileState.present c r → c ≠ [] →
      truthy item.checksum = some exp →
      (calculate_checksum H fs (get_media_path f) ≠ some exp →
        needs_download H fs item =
          (true, "checksum mismatch", some (get_media_path f))) ∧
      (calculate_checksum H fs (get_media_path f) = some exp →
        needs_download H fs item =
          (false, "checksum valid", some (get_media_path f)))) ∧
    (∀ u r c, truthy item.filename = some f → truthy item.url = some u →
      fs (get_media_path f) = FileState.present c r → c ≠ [] →
      truthy item.checksum = none →
      needs_download H fs item =
        (false, "exists in cache", some (get_media_path f))) ∧
    (truthy item.filename = some f →
      fs (get_media_path f) = FileState.absent →
      md_needs_download H fs item = (true, "not cached")) ∧
    (∀ r, truthy item.filename = some f →
      fs (get_media_path f) = FileState.present [] r →
      truthy item.checksum = none →
      md_needs_download H fs item = (false, "exists")) := by
  refine ⟨?_, ?_, ?_, ?_, ?_, ?_, ?_, ?_⟩
  · intro hf
    unfold needs_download
    rw [hf]
  · intro hf hu
    unfold needs_download
    rw [hf, hu]
  · intro u hf hu habs
    unfold needs_download
    rw [hf, hu]
    dsimp only
    rw [habs]
  · intro u r hf hu hz
    unfold needs_download
    rw [hf, hu]
    dsimp only
    rw [hz]
    simp
  · intro u r exp c hf hu hc hcne hchk
    have hlen : ¬ c.length = 0 := fun hh => hcne (List.length_eq_zero.mp hh)
    constructor
    · intro hmis
      unfold needs_download
      rw [hf, hu]
      dsimp only
      rw [hc]
      dsimp only
      rw [if_neg hlen, hchk]
      dsimp only
      rw [if_pos hmis]
    · intro hval
      unfold needs_download
      rw [hf, hu]
      dsimp only
      rw [hc]
      dsimp only
      rw [if_neg hlen, hchk]
      dsimp only
      rw [if_neg (fun hh => hh hval)]
  · intro u r c hf hu hc hcne hchk
    have hlen : ¬ c.length = 0 := fun hh => hcne (List.length_eq_zero.mp hh)
    unfold needs_download
    rw [hf, hu]
    dsimp only
    rw [hc]
    dsimp only
    rw [if_neg hlen, hchk]
  · intro hf habs
    unfold md_needs_download
    rw [hf]
    dsimp only
    rw [habs]
  · intro r hf hz hchk
    unfold md_needs_download
    rw [hf]
    dsimp only
    rw [hz]
    dsimp only
    rw [hchk]

/-- Claim C4 counterexample: for `media_downloader.needs_download`, an
uncached item with a missing url is reported as needing download (the
claim says a missing url makes it not needed), and a present zero-byte
file without a checksum is reported as not needing download (the claim
says an empty file is needed). -/
theorem needs_download_url_counterexample :
    truthy (Item.mk (some "a.mp4") none none).url = none ∧
    md_needs_download (fun _ => "d") (fun _ => FileState.absent)
      (Item.mk (some "a.mp4") none none) = (true, "not cached") ∧
    md_needs_download (fun _ => "d") (fun _ => FileState.present [] true)
      (Item.mk (some "a.mp4") (some "http://s/a.mp4") none)
      = (false, "exists") := by
  refine ⟨rfl, ?_, ?_⟩ <;> decide

/-- Claim C4 witness: concrete runs of every branch of the amended
decision table. -/
theorem needs_download_decision_witness :
    needs_download (fun _ => "d") (fun _ => FileState.absent)
      (Item.mk (some "a.mp4") (some "http://s/a.mp4") none)
      = (true, "not cached", some "media_cache/a.mp4") ∧
    needs_download (fun _ => "d")
      (fun p => if p = "media_cache/a.mp4"
        then FileState.present [1] true else FileState.absent)
      (Item.mk (some "a.mp4") (some "http://s/a.mp4") (some "c"))
      = (true, "checksum mismatch", some "media_cache/a.mp4") ∧
    needs_download (fun _ => "d") (fun _ => FileState.absent)
      (Item.mk (some "a.mp4") none none)
      = (false, "missing url", none) := by
  have h1 := (needs_download_decision (fun _ => "d")
    (fun _ => FileState.absent)
    (Item.mk (some "a.mp4") (some "http://s/a.mp4") none) "a.mp4").2.2.1
    "http://s/a.mp4" rfl rfl rfl
  have h2 := ((needs_download_decision (fun _ => "d")
    (fun p => if p = "media_cache/a.mp4"
      then FileState.present [1] true else FileState.absent)
    (Item.mk (some "a.mp4") (some "http://s/a.mp4") (some "c"))
    "a.mp4").2.2.2.2.1 "http://s/a.mp4" true "c" [1] rfl rfl (by decide)
    (by decide) rfl).1 (by decide)
  have h3 := (needs_download_decision (fun _ => "d")
    (fun _ => FileState.absent)
    (Item.mk (some "a.mp4") none none) "a.mp4").2.1 rfl rfl
  exact ⟨h1, h2, h3⟩


theorem download_single_item_inert (H : List Nat → String) (fs : FS)
    (item : Item) (nt : NetResult) (trb : Bool)
    (h : truthy item.filename = none ∨
      (∃ f, truthy item.filename = some f ∧ truthy item.url = none)) :
    download_single_item H fs item nt trb =
      (⟨"cached",
        if truthy item.filename = none then "missing filename"
        else "missing url"⟩, fs) := by
  rcases h with hf | ⟨f, hf, hu⟩
  · unfold download_single_item needs_download
    rw [hf]
    simp [hf]
  · unfold download_single_item needs_download
    rw [hf, hu]
    simp [hf]

/-- Claim C10: an item missing its filename or its url is reported by
`download_single_item` with status `cached` (reason `missing filename` or
`missing url`) even though no file exists for it, so the batch summary
counts it in `cached`, not in `errors` and not in a separate skipped
category. -/
theorem inert_items_counted_cached (H : List Nat → String) (fs : FS)
    (nt : NetResult) (trb : Bool) (item : Item) :
    (truthy item.filename = none →
      download_single_item H fs item nt trb =
        (⟨"cached", "missing filename"⟩, fs)) ∧
    (∀ f, truthy item.filename = some f → truthy item.url = none →
      download_single_item H fs item nt trb =
        (⟨"cached", "missing url"⟩, fs)) ∧
    (∀ (pl : Playlist) (net : Item → NetResult) (tr : Item → Bool),
      pl.items = [item] →
      (truthy item.filename = none ∨
        (∃ f, truthy item.filename = some f ∧ truthy item.url = none)) →
      ∃ s : BatchSummary,
        download_playlist_items H fs pl net tr = Except.ok s ∧
        s.cached = 1 ∧ s.downloaded = 0 ∧ s.errors = 0) := by
  refine ⟨?_, ?_, ?_⟩
  · intro hf
    have := download_single_item_inert H fs item nt trb (Or.inl hf)
    rw [hf] at this
    simpa using this
  · intro f hf hu
    have := download_single_item_inert H fs item nt trb
      (Or.inr ⟨f, hf, hu⟩)
    rw [hf] at this
    simpa using this
  · intro pl net tr hpl hinert
    have hne : pl.items ≠ [] := by rw [hpl]; simp
    unfold download_playlist_items
    rw [if_neg hne, hpl]
    have hres := download_single_item_inert H fs item (net item) (tr item)
      hinert
    refine ⟨_, rfl, ?_, ?_, ?_⟩ <;>
      simp [countStatus, List.countP_cons, hres]

/-- Claim C10 witness: a playlist whose single item has a url but no
filename is summarised with `cached = 1`, `errors = 0`. -/
theorem inert_items_counted_cached_witness :
    download_single_item (fun _ => "d") (fun _ => FileState.absent)
      (Item.mk none (some "http://s/x.mp4") none) NetResult.failConnect true
      = (⟨"cached", "missing filename"⟩, fun _ => FileState.absent) ∧
    ∃ s : BatchSummary,
      download_playlist_items (fun _ => "d") (fun _ => FileState.absent)
        ⟨"v1", true, [Item.mk none (some "http://s/x.mp4") none]⟩
        (fun _ => NetResult.failConnect) (fun _ => true) = Except.ok s ∧
      s.cached = 1 ∧ s.downloaded = 0 ∧ s.errors = 0 := by
  constructor
  · exact (inert_items_counted_cached (fun _ => "d")
      (fun _ => FileState.absent) NetResult.failConnect true
      (Item.mk none (some "http://s/x.mp4") none)).1 rfl
  · exact (inert_items_counted_cached (fun _ => "d")
      (fun _ => FileState.absent) NetResult.failConnect true
      (Item.mk none (some "http://s/x.mp4") none)).2.2
      ⟨"v1", true, [Item.mk none (some "http://s/x.mp4") none]⟩
      (fun _ => NetResult.failConnect) (fun _ => true) rfl (Or.inl rfl)


/-- Claim C8 (amended): the pruning pass excludes only `.gitkeep` from its
cached-filename set — in-progress `.tmp` temp files are included and,
never being referenced by a playlist, become deletion candidates; the
cache-status listing of the download manager does exclude `.tmp` names;
and playback resolves exactly the path derived from the item filename, so
a download temp path is only ever resolved for an item whose own filename
carries the temp suffix. -/
theorem temp_files_visibility :
    (∀ (cache : Finset String) (n : String), n ∈ cache →
      n ≠ ".gitkeep" → n ∈ get_cached_filenames cache) ∧
    (∀ (cache : Finset String) (pl : Playlist) (n : String), n ∈ cache →
      n ≠ ".gitkeep" → n ∉ get_current_playlist_filenames pl →
      n ∈ (cleanup_old_cache_files pl cache).deleted_files) ∧
    (∀ (names : List String) (n : String), strEndsWith n ".tmp" = true →
      n ∉ get_cache_status_filenames names) ∧
    (∀ f g : String, get_media_path f ++ ".tmp" = get_media_path g →
      g = f ++ ".tmp") := by
  refine ⟨?_, ?_, ?_, ?_⟩
  · intro cache n hmem hgit
    unfold get_cached_filenames
    rw [Finset.mem_filter]
    exact ⟨hmem, hgit⟩
  · intro cache pl n hmem hgit hnp
    show n ∈ get_cached_filenames cache \ get_current_playlist_filenames pl
    rw [Finset.mem_sdiff]
    exact ⟨Finset.mem_filter.mpr ⟨hmem, hgit⟩, hnp⟩
  · intro names n htmp hmem
    rw [get_cache_status_filenames, List.mem_filter, htmp] at hmem
    simp at hmem
  · intro f g h
    unfold get_media_path at h
    have hd := congrArg String.data h
    simp only [String.data_append] at hd
    rw [List.append_assoc] at hd
    have hc := List.append_cancel_left hd
    apply String.ext
    rw [String.data_append]
    exact hc.symm

/-- Claim C8 counterexample: a `.tmp` temp file in the cache directory is
included in the pruning pass's cached-filename set (the claim says it is
excluded) and is deleted as an unreferenced file. -/
theorem temp_file_pruned_counterexample :
    strEndsWith "b.mp4.tmp" ".tmp" = true ∧
    "b.mp4.tmp" ∈ get_cached_filenames ({"a.mp4", "b.mp4.tmp"} : Finset String) ∧
    "b.mp4.tmp" ∈ (cleanup_old_cache_files
      ⟨"v1", true, [Item.mk (some "a.mp4") (some "http://s/a.mp4") none]⟩
      ({"a.mp4", "b.mp4.tmp"} : Finset String)).deleted_files := by
  refine ⟨?_, ?_, ?_⟩ <;> decide

/-- Claim C8 witness: concrete instances of the amended statement. -/
theorem temp_files_visibility_witness :
    "b.mp4.tmp" ∈ get_cached_filenames
      ({"a.mp4", "b.mp4.tmp"} : Finset String) ∧
    "c.tmp" ∉ get_cache_status_filenames ["a.mp4", "c.tmp"] ∧
    "a.mp4.tmp" = "a.mp4" ++ ".tmp" := by
  refine ⟨?_, ?_, ?_⟩
  · exact temp_files_visibility.1 {"a.mp4", "b.mp4.tmp"} "b.mp4.tmp"
      (by decide) (by decide)
  · exact temp_files_visibility.2.2.1 ["a.mp4", "c.tmp"] "c.tmp" (by decide)
  · exact temp_files_visibility.2.2.2 "a.mp4" "a.mp4.tmp" (by decide)


theorem load_playlist_adopt (st : PlayerState) (pl : Playlist)
    (h : some pl.version ≠ st.playlist_version) :
    load_playlist st (some pl) =
      (true,
        { st with
          playlist := pl.items
          playlist_version := some pl.version
          loop_enabled := pl.loop
          current_index := 0
          no_playlist_since :=
            if pl.items ≠ [] then none else st.no_playlist_since
          showing_default_screen :=
            if pl.items ≠ [] then false else st.showing_default_screen }) := by
  unfold load_playlist
  dsimp only
  rw [if_pos h]

/-- Claim C3: on a supervisory tick the reloaded playlist is adopted iff
its version string differs from the one driving playback; on adoption the
player process is stopped, the index resets to 0 and items/loop are
replaced; on an equal version the reload is ignored even if the items
differ. -/
theorem version_change_adoption :
    (∀ (st : PlayerState) (pl : Playlist),
      (load_playlist st (some pl)).1 = true ↔
        some pl.version ≠ st.playlist_version) ∧
    (∀ (st : PlayerState) (pl : Playlist),
      some pl.version ≠ st.playlist_version →
      (load_playlist st (some pl)).2.playlist = pl.items ∧
      (load_playlist st (some pl)).2.current_index = 0 ∧
      (load_playlist st (some pl)).2.loop_enabled = pl.loop ∧
      (load_playlist st (some pl)).2.playlist_version = some pl.version) ∧
    (∀ (st : PlayerState) (pl : Playlist),
      some pl.version = st.playlist_version →
      load_playlist st (some pl) = (false, st)) ∧
    (∀ (env : TickEnv) (st : PlayerState),
      (load_playlist st env.doc).1 = true →
      Effect.stoppedPlayer ∈ (tick env st).2) := by
  refine ⟨?_, ?_, ?_, ?_⟩
  · intro st pl
    unfold load_playlist
    dsimp only
    constructor
    · intro h
      by_contra hv
      rw [if_neg (by simp [hv])] at h
      simp at h
    · intro hv
      rw [if_pos hv]
  · intro st pl hv
    rw [load_playlist_adopt st pl hv]
    exact ⟨rfl, rfl, rfl, rfl⟩
  · intro st pl hv
    unfold load_playlist
    dsimp only
    rw [if_neg (by simp [hv])]
  · intro env st h
    unfold tick
    dsimp only
    rw [h]
    simp

/-- Claim C3 witness: version change from "A" to "B" adopts the new
playlist at index 0 and stops the player; an equal version is a no-op. -/
theorem version_change_adoption_witness :
    (load_playlist
        ⟨[], 2, some "A", true, false, none⟩
        (some ⟨"B", false,
          [Item.mk (some "a.mp4") (some "http://s/a.mp4") none]⟩)).2.playlist
      = [Item.mk (some "a.mp4") (some "http://s/a.mp4") none] ∧
    (load_playlist
        ⟨[], 2, some "A", true, false, none⟩
        (some ⟨"B", false,
          [Item.mk (some "a.mp4") (some "http://s/a.mp4") none]⟩)).2.current_index
      = 0 ∧
    load_playlist
        ⟨[], 2, some "B", true, false, none⟩
        (some ⟨"B", false,
          [Item.mk (some "a.mp4") (some "http://s/a.mp4") none]⟩)
      = (false, ⟨[], 2, some "B", true, false, none⟩) ∧
    Effect.stoppedPlayer ∈ (tick
      ⟨some ⟨"B", false,
        [Item.mk (some "a.mp4") (some "http://s/a.mp4") none]⟩, 0,
        fun _ => FileState.absent, 0, true, []⟩
      ⟨[], 2, some "A", true, false, none⟩).2 := by
  refine ⟨?_, ?_, ?_, ?_⟩
  · exact (version_change_adoption.2.1 _ _ (by decide)).1
  · exact (version_change_adoption.2.1 _ _ (by decide)).2.1
  · exact version_change_adoption.2.2.1 _ _ (by decide)
  · refine version_change_adoption.2.2.2 _ _ ?_
    show (load_playlist _ (some _)).1 = true
    exact (version_change_adoption.1 _ _).mpr (by decide)


/-- Claim C6: the supervisor advances the index by exactly one after each
played item regardless of success (missing cached file and non-zero exit
both yield failure but still advance); with loop enabled and 3 items the
played indices cycle 0,1,2,0,1,2,...; with loop disabled the items play
once in order and the supervisor stays in the finished state, resuming
only when a reload carries a different version. -/
theorem playback_advance_loop :
    (∀ (fs : FS) (item : Item) (f : String) (ec : Nat),
      truthy item.filename = some f →
      (FS.existsb fs (get_media_path f) = false →
        play_media_item fs item ec = false) ∧
      (FS.existsb fs (get_media_path f) = true → ec ≠ 0 →
        play_media_item fs item ec = false)) ∧
    (∀ (env : TickEnv) (st : PlayerState), steady env st →
      st.current_index < st.playlist.length →
      (tick env st).1.current_index = st.current_index + 1) ∧
    (∀ (env : TickEnv) (v : String) (st : PlayerState) (n : Nat),
      steadyV env v → st.playlist_version = some v →
      st.playlist.length = 3 → st.loop_enabled = true →
      st.current_index = 0 →
      playedIndices (run_trace env n st).2 =
        (List.range n).map (fun k => k % 3)) ∧
    (∀ (env : TickEnv) (v : String) (st : PlayerState),
      steadyV env v → st.playlist_version = some v → st.playlist ≠ [] →
      st.current_index ≥ st.playlist.length → st.loop_enabled = false →
      ∀ n : Nat, (run_trace env n st).1 = st ∧
        (0 < n →
          Effect.wroteState "finished" (some "Playlist complete")
            ∈ (run_trace env n st).2)) ∧
    (∀ (env : TickEnv) (st : PlayerState) (pl : Playlist),
      env.doc = some pl → some pl.version ≠ st.playlist_version →
      pl.items ≠ [] →
      (tick env st).1.current_index = 1 ∧
      playedIndices (tick env st).2 = [0]) := by
  refine ⟨?_, ?_, ?_, ?_, ?_⟩
  · intro fs item f ec hf
    constructor
    · intro hex
      unfold play_media_item
      rw [hf]
      simp [hex]
    · intro hex hec
      unfold play_media_item
      rw [hf]
      simp [hex, hec]
  · intro env st hs hidx
    rw [tick_advance env st hs hidx]
  · intro env v st n hsv hv hlen hloop hidx0
    have h := run_trace_loop3 env v hsv n st hv hlen hloop (by omega)
    rw [hidx0] at h
    simpa using h
  · intro env v st hsv hv hne hge hloop n
    have h := run_trace_finished env v hsv st hv hne hge hloop n
    constructor
    · rw [h]
    · intro hn
      rw [h]
      simp [List.mem_replicate]
      omega
  · intro env st pl hdoc hv hne
    have hlen : 0 < pl.items.length := List.length_pos.mpr hne
    unfold tick
    dsimp only
    rw [hdoc, load_playlist_adopt st pl hv]
    dsimp only
    rw [if_neg hne]
    unfold tick_play
    dsimp only
    rw [if_neg (by omega)]
    unfold play_item
    dsimp only
    constructor
    · rfl
    · simp [playedIndices]

/-- Claim C6 witness: with loop on and 3 items, 7 ticks play indices
0,1,2,0,1,2,0; with loop off from the finished position the state is
stationary and writes `finished`. -/
theorem playback_advance_loop_witness :
    playedIndices (run_trace
        ⟨none, 0, fun _ => FileState.absent, 0, true, []⟩ 7
        ⟨[Item.mk (some "a.mp4") (some "http://s/a") none,
          Item.mk (some "b.mp4") (some "http://s/b") none,
          Item.mk (some "c.mp4") (some "http://s/c") none],
          0, some "v", true, false, none⟩).2 = [0, 1, 2, 0, 1, 2, 0] ∧
    (run_trace ⟨none, 0, fun _ => FileState.absent, 0, true, []⟩ 5
        ⟨[Item.mk (some "a.mp4") (some "http://s/a") none,
          Item.mk (some "b.mp4") (some "http://s/b") none,
          Item.mk (some "c.mp4") (some "http://s/c") none],
          3, some "v", false, false, none⟩).1 =
      ⟨[Item.mk (some "a.mp4") (some "http://s/a") none,
        Item.mk (some "b.mp4") (some "http://s/b") none,
        Item.mk (some "c.mp4") (some "http://s/c") none],
        3, some "v", false, false, none⟩ := by
  constructor
  · have h := playback_advance_loop.2.2.1
      ⟨none, 0, fun _ => FileState.absent, 0, true, []⟩ "v"
      ⟨[Item.mk (some "a.mp4") (some "http://s/a") none,
        Item.mk (some "b.mp4") (some "http://s/b") none,
        Item.mk (some "c.mp4") (some "http://s/c") none],
        0, some "v", true, false, none⟩ 7
      (fun pl hp => nomatch hp) rfl rfl rfl rfl
    rw [h]
    decide
  · exact ((playback_advance_loop.2.2.2.1
      ⟨none, 0, fun _ => FileState.absent, 0, true, []⟩ "v"
      ⟨[Item.mk (some "a.mp4") (some "http://s/a") none,
        Item.mk (some "b.mp4") (some "http://s/b") none,
        Item.mk (some "c.mp4") (some "http://s/c") none],
        3, some "v", false, false, none⟩
      (fun pl hp => nomatch hp) rfl (by decide) (by decide) rfl) 5).1


/-- Claim C7: with an empty playlist the supervisor records when waiting
began and writes the waiting state; once the configured default-screen
timeout has elapsed it launches the default screen, and a subsequent
reload yielding a non-empty playlist stops the default-screen process and
moves to playing (the next tick plays index 0). -/
theorem waiting_default_screen :
    (∀ (env : TickEnv) (st : PlayerState),
      env.doc = none → st.playlist = [] → st.no_playlist_since = none →
      tick env st =
        ({ st with no_playlist_since := some env.now },
         [Effect.wroteState "waiting" (some "No playlist")])) ∧
    (∀ (env : TickEnv) (st : PlayerState) (t0 : Nat) (newPl : Playlist),
      env.doc = none → env.default_ok = true →
      env.innerDocs = [some newPl] →
      st.playlist = [] → st.no_playlist_since = some t0 →
      DEFAULT_SCREEN_TIMEOUT ≤ env.now - t0 →
      st.showing_default_screen = false →
      newPl.items ≠ [] → some newPl.version ≠ st.playlist_version →
      tick env st =
        (⟨newPl.items, 0, some newPl.version, newPl.loop, false, none⟩,
         [Effect.wroteState "showing_default" (some "Default Screen"),
          Effect.launchedDefault, Effect.stoppedPlayer]) ∧
      (∀ env2 : TickEnv,
        steady env2 (⟨newPl.items, 0, some newPl.version, newPl.loop,
          false, none⟩ : PlayerState) →
        playedIndices (tick env2
          (⟨newPl.items, 0, some newPl.version, newPl.loop,
            false, none⟩ : PlayerState)).2 = [0])) := by
  constructor
  · intro env st hdoc hpl hsince
    unfold tick tick_empty
    rw [hdoc]
    dsimp only [load_playlist]
    rw [hpl, hsince]
    simp
  · intro env st t0 newPl hdoc hok hinner hpl hsince htime hshow hnewne hver
    constructor
    · unfold tick
      rw [hdoc]
      dsimp only [load_playlist]
      rw [if_pos hpl]
      unfold tick_empty
      rw [hsince]
      dsimp only
      rw [if_pos ⟨htime, hshow⟩, hok]
      rw [if_pos rfl]
      rw [hinner]
      unfold default_screen_wait
      dsimp only
      rw [if_neg (by simp [hpl])]
      rw [load_playlist_adopt _ newPl (by simpa using hver)]
      dsimp only
      rw [if_pos hnewne]
      simp
    · intro env2 hs2
      have hlen : (0 : Nat) <
          (⟨newPl.items, 0, some newPl.version, newPl.loop, false, none⟩
            : PlayerState).playlist.length := by
        dsimp only
        exact List.length_pos.mpr hnewne
      rw [tick_advance env2 _ hs2 hlen]
      simp [playedIndices]

/-- Claim C7 witness: a concrete empty-playlist state first records the
waiting start; after the timeout the default screen is launched, a
non-empty version-"B" reload is adopted with the default screen stopped,
and the following tick plays index 0. -/
theorem waiting_default_screen_witness :
    tick ⟨none, 5, fun _ => FileState.absent, 0, true, []⟩
        ⟨[], 0, some "A", true, false, none⟩ =
      (⟨[], 0, some "A", true, false, some 5⟩,
       [Effect.wroteState "waiting" (some "No playlist")]) ∧
    tick ⟨none, 35, fun _ => FileState.absent, 0, true,
        [some ⟨"B", true,
          [Item.mk (some "a.mp4") (some "http://s/a") none]⟩]⟩
        ⟨[], 0, some "A", true, false, some 5⟩ =
      (⟨[Item.mk (some "a.mp4") (some "http://s/a") none], 0, some "B",
          true, false, none⟩,
       [Effect.wroteState "showing_default" (some "Default Screen"),
        Effect.launchedDefault, Effect.stoppedPlayer]) ∧
    playedIndices (tick ⟨none, 36, fun _ => FileState.absent, 0, true, []⟩
        ⟨[Item.mk (some "a.mp4") (some "http://s/a") none], 0, some "B",
          true, false, none⟩).2 = [0] := by
  refine ⟨?_, ?_, ?_⟩
  · exact waiting_default_screen.1
      ⟨none, 5, fun _ => FileState.absent, 0, true, []⟩
      ⟨[], 0, some "A", true, false, none⟩ rfl rfl rfl
  · exact (waiting_default_screen.2
      ⟨none, 35, fun _ => FileState.absent, 0, true,
        [some ⟨"B", true,
          [Item.mk (some "a.mp4") (some "http://s/a") none]⟩]⟩
      ⟨[], 0, some "A", true, false, some 5⟩ 5
      ⟨"B", true, [Item.mk (some "a.mp4") (some "http://s/a") none]⟩
      rfl rfl rfl rfl rfl (by decide) rfl (by decide) (by decide)).1
  · exact (waiting_default_screen.2
      ⟨none, 35, fun _ => FileState.absent, 0, true,
        [some ⟨"B", true,
          [Item.mk (some "a.mp4") (some "http://s/a") none]⟩]⟩
      ⟨[], 0, some "A", true, false, some 5⟩ 5
      ⟨"B", true, [Item.mk (some "a.mp4") (some "http://s/a") none]⟩
      rfl rfl rfl rfl rfl (by decide) rfl (by decide) (by decide)).2
      ⟨none, 36, fun _ => FileState.absent, 0, true, []⟩
      (fun pl hp => nomatch hp)


/-- Claim C9 (amended): the digest is computed by streaming fixed-size
8192-byte chunks whose concatenation is exactly the file content; when the
path is unreadable the function catches the error internally and returns
no digest (`None`) — no IOError propagates to callers; and every caller
treats a missing digest as verification failed, never as valid: a cached
file whose digest cannot be computed is scheduled for re-download
(checksum mismatch) and a downloaded temp file whose digest cannot be
computed is rejected and removed. -/
theorem checksum_failure_handling (H : List Nat → String) :
    (∀ c : List Nat, hasherFold (chunks8192 c) = c ∧
      ∀ ch ∈ chunks8192 c, ch.length ≤ 8192) ∧
    (∀ (fs : FS) (p : String) (c : List Nat),
      fs p = FileState.present c false →
      calcChecksumExc H fs p = Except.ok none ∧
      calculate_checksum H fs p = none) ∧
    (∀ (fs : FS) (p : String) (c : List Nat),
      fs p = FileState.present c true →
      calculate_checksum H fs p = some (H c)) ∧
    (∀ (fs : FS) (item : Item) (f u exp : String) (c : List Nat),
      truthy item.filename = some f → truthy item.url = some u →
      fs (get_media_path f) = FileState.present c false → c ≠ [] →
      truthy item.checksum = some exp →
      needs_download H fs item =
        (true, "checksum mismatch", some (get_media_path f))) ∧
    (∀ (fs : FS) (item : Item) (f u exp : String) (bytes : List Nat),
      truthy item.filename = some f → truthy item.url = some u →
      truthy item.checksum = some exp →
      (needs_download H fs item).1 = true →
      (download_single_item H fs item (NetResult.ok bytes) false).1 =
        ⟨"error", "checksum verification failed"⟩ ∧
      (download_single_item H fs item (NetResult.ok bytes) false).2
        (get_media_path f ++ ".tmp") = FileState.absent ∧
      (download_single_item H fs item (NetResult.ok bytes) false).2
        (get_media_path f) = fs (get_media_path f)) := by
  refine ⟨?_, ?_, ?_, ?_, ?_⟩
  · intro c
    exact ⟨by rw [hasherFold_eq_flatten, chunks8192_flatten],
      chunks8192_size c⟩
  · intro fs p c h
    refine ⟨?_, calculate_checksum_unreadable H fs p c h⟩
    rw [calcChecksumExc_eq, calculate_checksum_unreadable H fs p c h]
  · intro fs p c h
    exact calculate_checksum_readable H fs p c h
  · intro fs item f u exp c hf hu hc hcne hchk
    have hnone := calculate_checksum_unreadable H fs (get_media_path f) c hc
    exact ((needs_download_decision H fs item f).2.2.2.2.1 u false exp c
      hf hu hc hcne hchk).1 (by rw [hnone]; simp)
  · intro fs item f u exp bytes hf hu hchk hneed
    have hpath := needs_download_true_path H fs item f hf hneed
    rcases hnd : needs_download H fs item with ⟨b, r, po⟩
    rw [hnd] at hneed hpath
    dsimp only at hneed hpath
    subst hneed
    subst hpath
    have htmpne : get_media_path f ≠ get_media_path f ++ ".tmp" :=
      ne_append_tmp _ ".tmp" (by decide)
    have hcc : calculate_checksum H
        (FS.set fs (get_media_path f ++ ".tmp")
          (FileState.present bytes false))
        (get_media_path f ++ ".tmp") = none :=
      calculate_checksum_unreadable H _ _ bytes (FS.set_self _ _ _)
    unfold download_single_item
    rw [hnd]
    dsimp only
    rw [hu]
    dsimp only
    rw [hchk]
    dsimp only
    rw [if_pos (by rw [hcc]; simp)]
    refine ⟨rfl, FS.set_self _ _ _, ?_⟩
    show FS.set (FS.set fs (get_media_path f ++ ".tmp")
        (FileState.present bytes false)) (get_media_path f ++ ".tmp")
        FileState.absent (get_media_path f) = fs (get_media_path f)
    rw [FS.set_ne _ _ _ _ htmpne, FS.set_ne _ _ _ _ htmpne]

/-- Claim C9 counterexample: on an unreadable path the checksum function
does not fail with an IOError — the exception is caught internally and
the call returns normally with no digest (`None`). -/
theorem checksum_no_ioerror_counterexample :
    calcChecksumExc (fun _ => "d")
      (fun p => if p = "media_cache/f.bin"
        then FileState.present [1, 2] false else FileState.absent)
      "media_cache/f.bin" = Except.ok none ∧
    ¬ ∃ e, calcChecksumExc (fun _ => "d")
      (fun p => if p = "media_cache/f.bin"
        then FileState.present [1, 2] false else FileState.absent)
      "media_cache/f.bin" = Except.error e := by
  have h : calcChecksumExc (fun _ => "d")
      (fun p => if p = "media_cache/f.bin"
        then FileState.present [1, 2] false else FileState.absent)
      "media_cache/f.bin" = Except.ok none := by rfl
  refine ⟨h, ?_⟩
  rintro ⟨e, he⟩
  rw [h] at he
  exact Except.noConfusion he

/-- Claim C9 witness: an unreadable cached file with a checksum is
scheduled for re-download, and an unreadable downloaded temp file is
rejected with the temp removed and the final file untouched. -/
theorem checksum_failure_handling_witness :
    needs_download (fun _ => "d")
      (fun p => if p = "media_cache/a.mp4"
        then FileState.present [1] false else FileState.absent)
      (Item.mk (some "a.mp4") (some "http://s/a") (some "c"))
      = (true, "checksum mismatch", some "media_cache/a.mp4") ∧
    (download_single_item (fun _ => "d")
      (fun p => if p = "media_cache/a.mp4"
        then FileState.present [1] false else FileState.absent)
      (Item.mk (some "a.mp4") (some "http://s/a") (some "c"))
      (NetResult.ok [2]) false).1 =
        ⟨"error", "checksum verification failed"⟩ ∧
    (download_single_item (fun _ => "d")
      (fun p => if p = "media_cache/a.mp4"
        then FileState.present [1] false else FileState.absent)
      (Item.mk (some "a.mp4") (some "http://s/a") (some "c"))
      (NetResult.ok [2]) false).2 "media_cache/a.mp4.tmp"
      = FileState.absent := by
  refine ⟨?_, ?_, ?_⟩
  · exact (checksum_failure_handling (fun _ => "d")).2.2.2.1
      (fun p => if p = "media_cache/a.mp4"
        then FileState.present [1] false else FileState.absent)
      (Item.mk (some "a.mp4") (some "http://s/a") (some "c"))
      "a.mp4" "http://s/a" "c" [1] rfl rfl (by decide) (by decide) rfl
  · exact ((checksum_failure_handling (fun _ => "d")).2.2.2.2
      (fun p => if p = "media_cache/a.mp4"
        then FileState.present [1] false else FileState.absent)
      (Item.mk (some "a.mp4") (some "http://s/a") (some "c"))
      "a.mp4" "http://s/a" "c" [2] rfl rfl rfl (by decide)).1
  · exact ((checksum_failure_handling (fun _ => "d")).2.2.2.2
      (fun p => if p = "media_cache/a.mp4"
        then FileState.present [1] false else FileState.absent)
      (Item.mk (some "a.mp4") (some "http://s/a") (some "c"))
      "a.mp4" "http://s/a" "c" [2] rfl rfl rfl (by decide)).2.1


theorem needs_download_true_url (H : List Nat → String) (fs : FS)
    (item : Item) (h : (needs_download H fs item).1 = true) :
    ∃ u, truthy item.url = some u := by
  unfold needs_download at h
  cases hf : truthy item.filename with
  | none => rw [hf] at h; simp at h
  | some f =>
    rw [hf] at h
    cases hu : truthy item.url with
    | none => rw [hu] at h; simp at h
    | some u => exact ⟨u, rfl⟩

/-- Claim C1 (amended): both downloaders write to a temporary sibling path
and promote it to the final cached path by rename only after the checksum
(when specified) has been verified, and on any failure the pre-existing
final cached file is left byte-identical; `download_single_item` removes
the temp file on any failure (network error or checksum mismatch), and
`download_one` removes it on checksum mismatch — but a network failure
mid-transfer in `download_one` leaves the partial `.part` temp file on
disk. -/
theorem fetch_atomicity (H : List Nat → String) (fs : FS) (item : Item)
    (net : NetResult) (tr : Bool) (f : String)
    (hf : truthy item.filename = some f) :
    ((download_single_item H fs item net tr).1.status = "error" →
      (download_single_item H fs item net tr).2 (get_media_path f)
        = fs (get_media_path f)) ∧
    ((needs_download H fs item).1 = true →
      (net = NetResult.failConnect ∨ ∃ w, net = NetResult.failMid w) →
      (download_single_item H fs item net tr).1 =
        ⟨"error", "network error"⟩ ∧
      (download_single_item H fs item net tr).2
        (get_media_path f ++ ".tmp") = FileState.absent) ∧
    (∀ exp bytes, truthy item.checksum = some exp →
      (download_single_item H fs item (NetResult.ok bytes) tr).1.status
        = "downloaded" →
      H bytes = exp ∧
      (download_single_item H fs item (NetResult.ok bytes) tr).2
        (get_media_path f) = FileState.present bytes true) ∧
    (∀ exp bytes, (needs_download H fs item).1 = true →
      truthy item.checksum = some exp → H bytes ≠ exp →
      (download_single_item H fs item (NetResult.ok bytes) tr).1 =
        ⟨"error", "checksum verification failed"⟩ ∧
      (download_single_item H fs item (NetResult.ok bytes) tr).2
        (get_media_path f ++ ".tmp") = FileState.absent ∧
      (download_single_item H fs item (NetResult.ok bytes) tr).2
        (get_media_path f) = fs (get_media_path f)) ∧
    ((download_one H fs item net).1.status = "error" →
      (download_one H fs item net).2 (get_media_path f)
        = fs (get_media_path f)) ∧
    (∀ exp bytes u, (md_needs_download H fs item).1 = true →
      truthy item.url = some u → truthy item.checksum = some exp →
      H bytes ≠ exp →
      (download_one H fs item (NetResult.ok bytes)).1 =
        ⟨"error", "checksum verify failed"⟩ ∧
      (download_one H fs item (NetResult.ok bytes)).2
        (get_media_path f ++ ".part") = FileState.absent ∧
      (download_one H fs item (NetResult.ok bytes)).2
        (get_media_path f) = fs (get_media_path f)) ∧
    (∀ exp bytes, truthy item.checksum = some exp →
      (download_one H fs item (NetResult.ok bytes)).1.status
        = "downloaded" →
      H bytes = exp ∧
      (download_one H fs item (NetResult.ok bytes)).2
        (get_media_path f) = FileState.present bytes true) := by
  have htmpne : get_media_path f ≠ get_media_path f ++ ".tmp" :=
    ne_append_tmp _ ".tmp" (by decide)
  have hpartne : get_media_path f ≠ get_media_path f ++ ".part" :=
    ne_append_tmp _ ".part" (by decide)
  refine ⟨?_, ?_, ?_, ?_, ?_, ?_, ?_⟩
  · -- final file untouched on any download_single_item failure
    rcases hnd : needs_download H fs item with ⟨b, r, po⟩
    unfold download_single_item
    rw [hnd]
    cases b
    · exact fun _ => rfl
    · cases po with
      | none => exact fun _ => rfl
      | some p =>
        have hp : p = get_media_path f := by
          have h2 := needs_download_true_path H fs item f hf (by rw [hnd])
          rw [hnd] at h2
          exact Option.some_inj.mp h2
        subst hp
        cases truthy item.url with
        | none => exact fun _ => rfl
        | some u =>
          dsimp only
          cases net with
          | failConnect =>
            exact fun _ => FS.set_ne _ _ _ _ htmpne
          | failMid w =>
            exact fun _ => FS.set_ne _ _ _ _ htmpne
          | ok bytes =>
            cases truthy item.checksum with
            | none => exact fun h => by simp at h
            | some exp =>
              dsimp only
              split
              · intro _
                dsimp only
                rw [FS.set_ne _ _ _ _ htmpne, FS.set_ne _ _ _ _ htmpne]
              · exact fun h => by simp at h
  · -- network failure: error result and temp removed
    intro hneed hnet
    obtain ⟨u, hu⟩ := needs_download_true_url H fs item hneed
    rcases hnd : needs_download H fs item with ⟨b, r, po⟩
    rw [hnd] at hneed
    dsimp only at hneed
    subst hneed
    have hp : po = some (get_media_path f) := by
      have h2 := needs_download_true_path H fs item f hf (by rw [hnd])
      rw [hnd] at h2
      exact h2
    subst hp
    unfold download_single_item
    rw [hnd]
    dsimp only
    rw [hu]
    rcases hnet with hc | ⟨w, hw⟩
    · subst hc
      exact ⟨rfl, FS.set_self _ _ _⟩
    · subst hw
      exact ⟨rfl, FS.set_self _ _ _⟩
  · -- downloaded with a checksum: digest verified before the rename
    intro exp bytes hchk
    rcases hnd : needs_download H fs item with ⟨b, r, po⟩
    unfold download_single_item
    rw [hnd]
    cases b
    · exact fun h => by simp at h
    · cases po with
      | none => exact fun h => by simp at h
      | some p =>
        have hp : p = get_media_path f := by
          have h2 := needs_download_true_path H fs item f hf (by rw [hnd])
          rw [hnd] at h2
          exact Option.some_inj.mp h2
        subst hp
        cases truthy item.url with
        | none => exact fun h => by simp at h
        | some u =>
          dsimp only
          rw [hchk]
          dsimp only
          split
          · exact fun h => by simp at h
          · rename_i hval
            intro _
            rw [not_not] at hval
            rw [calculate_checksum] at hval
            have hread : FS.set fs (get_media_path f ++ ".tmp")
                (FileState.present bytes tr) (get_media_path f ++ ".tmp")
                = FileState.present bytes tr := FS.set_self _ _ _
            cases tr with
            | false =>
              rw [readFile, hread] at hval
              simp at hval
            | true =>
              rw [readFile, hread] at hval
              simp only [hasherFold_eq_flatten, chunks8192_flatten] at hval
              refine ⟨Option.some_inj.mp hval, ?_⟩
              dsimp only
              rw [FS.set_ne _ _ _ _ htmpne, FS.set_self]
  · -- checksum mismatch: error, temp removed, final untouched
    intro exp bytes hneed hchk hne
    obtain ⟨u, hu⟩ := needs_download_true_url H fs item hneed
    rcases hnd : needs_download H fs item with ⟨b, r, po⟩
    rw [hnd] at hneed
    dsimp only at hneed
    subst hneed
    have hp : po = some (get_media_path f) := by
      have h2 := needs_download_true_path H fs item f hf (by rw [hnd])
      rw [hnd] at h2
      exact h2
    subst hp
    unfold download_single_item
    rw [hnd]
    dsimp only
    rw [hu]
    dsimp only
    rw [hchk]
    dsimp only
    have hcc : calculate_checksum H
        (FS.set fs (get_media_path f ++ ".tmp")
          (FileState.present bytes tr)) (get_media_path f ++ ".tmp")
        ≠ some exp := by
      cases tr with
      | false =>
        rw [calculate_checksum_unreadable H _ _ bytes (FS.set_self _ _ _)]
        simp
      | true =>
        rw [calculate_checksum_readable H _ _ bytes (FS.set_self _ _ _)]
        simp [hne]
    rw [if_pos hcc]
    refine ⟨rfl, FS.set_self _ _ _, ?_⟩
    show FS.set (FS.set fs (get_media_path f ++ ".tmp")
        (FileState.present bytes tr)) (get_media_path f ++ ".tmp")
        FileState.absent (get_media_path f) = fs (get_media_path f)
    rw [FS.set_ne _ _ _ _ htmpne, FS.set_ne _ _ _ _ htmpne]
  · -- final file untouched on any download_one failure
    rcases hmd : md_needs_download H fs item with ⟨b, r⟩
    unfold download_one
    rw [hmd]
    cases b
    · exact fun _ => rfl
    · rw [hf]
      cases truthy item.url with
      | none => exact fun _ => rfl
      | some u =>
        dsimp only
        cases net with
        | failConnect => exact fun _ => rfl
        | failMid w => exact fun _ => FS.set_ne _ _ _ _ hpartne
        | ok bytes =>
          cases truthy item.checksum with
          | none => exact fun h => by simp at h
          | some exp =>
            dsimp only
            split
            · intro _
              dsimp only
              rw [FS.set_ne _ _ _ _ hpartne, FS.set_ne _ _ _ _ hpartne]
            · exact fun h => by simp at h
  · -- download_one checksum mismatch: error, .part removed, final kept
    intro exp bytes u hmdneed hu hchk hne
    rcases hmd : md_needs_download H fs item with ⟨b, r⟩
    rw [hmd] at hmdneed
    dsimp only at hmdneed
    subst hmdneed
    unfold download_one
    rw [hmd, hu, hf]
    dsimp only
    rw [hchk]
    dsimp only
    have hcc : sha256_file H
        (FS.set fs (get_media_path f ++ ".part")
          (FileState.present bytes true)) (get_media_path f ++ ".part")
        ≠ some exp := by
      rw [sha256_file_readable H _ _ bytes (FS.set_self _ _ _)]
      simp [hne]
    rw [if_pos hcc]
    refine ⟨rfl, FS.set_self _ _ _, ?_⟩
    show FS.set (FS.set fs (get_media_path f ++ ".part")
        (FileState.present bytes true)) (get_media_path f ++ ".part")
        FileState.absent (get_media_path f) = fs (get_media_path f)
    rw [FS.set_ne _ _ _ _ hpartne, FS.set_ne _ _ _ _ hpartne]
  · -- download_one downloaded with a checksum: digest verified
    intro exp bytes hchk
    rcases hmd : md_needs_download H fs item with ⟨b, r⟩
    unfold download_one
    rw [hmd]
    cases b
    · exact fun h => by simp at h
    · rw [hf]
      cases truthy item.url with
      | none => exact fun h => by simp at h
      | some u =>
        dsimp only
        rw [hchk]
        dsimp only
        split
        · exact fun h => by simp at h
        · rename_i hval
          intro _
          rw [not_not] at hval
          rw [sha256_file_readable H _ _ bytes (FS.set_self _ _ _)] at hval
          refine ⟨Option.some_inj.mp hval, ?_⟩
          dsimp only
          rw [FS.set_ne _ _ _ _ hpartne, FS.set_self]


/-- Claim C1 counterexample: in `media_downloader.download_one` a network
failure mid-transfer reports an error and leaves the final cached file
byte-identical, but the partial `.part` temp file is NOT removed (the
exception handler has no cleanup), contradicting the claim that on any
failure the temp file is removed. -/
theorem fetch_temp_leftover_counterexample :
    (download_one (fun _ => "d")
      (fun p => if p = "media_cache/a.mp4"
        then FileState.present [7] true else FileState.absent)
      (Item.mk (some "a.mp4") (some "http://s/a") (some "c"))
      (NetResult.failMid [9])).1 = ⟨"error", "network error"⟩ ∧
    (download_one (fun _ => "d")
      (fun p => if p = "media_cache/a.mp4"
        then FileState.present [7] true else FileState.absent)
      (Item.mk (some "a.mp4") (some "http://s/a") (some "c"))
      (NetResult.failMid [9])).2 "media_cache/a.mp4.part"
      = FileState.present [9] true ∧
    (download_one (fun _ => "d")
      (fun p => if p = "media_cache/a.mp4"
        then FileState.present [7] true else FileState.absent)
      (Item.mk (some "a.mp4") (some "http://s/a") (some "c"))
      (NetResult.failMid [9])).2 "media_cache/a.mp4"
      = FileState.present [7] true := by
  refine ⟨?_, ?_, ?_⟩ <;> decide

/-- Claim C1 witness: `download_single_item` on a connect failure reports
the error with the temp file absent, and a download whose checksum matches
is promoted to the final path. -/
theorem fetch_atomicity_witness :
    (download_single_item (fun _ => "c") (fun _ => FileState.absent)
      (Item.mk (some "a.mp4") (some "http://s/a") none)
      NetResult.failConnect true).1 = ⟨"error", "network error"⟩ ∧
    (download_single_item (fun _ => "c") (fun _ => FileState.absent)
      (Item.mk (some "a.mp4") (some "http://s/a") none)
      NetResult.failConnect true).2 "media_cache/a.mp4.tmp"
      = FileState.absent ∧
    (download_single_item (fun _ => "c") (fun _ => FileState.absent)
      (Item.mk (some "a.mp4") (some "http://s/a") (some "c"))
      (NetResult.ok [5]) true).2 "media_cache/a.mp4"
      = FileState.present [5] true := by
  have h1 := (fetch_atomicity (fun _ => "c") (fun _ => FileState.absent)
    (Item.mk (some "a.mp4") (some "http://s/a") none)
    NetResult.failConnect true "a.mp4" rfl).2.1 (by decide) (Or.inl rfl)
  have h2 := ((fetch_atomicity (fun _ => "c") (fun _ => FileState.absent)
    (Item.mk (some "a.mp4") (some "http://s/a") (some "c"))
    (NetResult.ok [5]) true "a.mp4" rfl).2.2.1 "c" [5] rfl (by decide)).2
  exact ⟨h1.1, h1.2, h2⟩

end PiPlayer
